import Mathlib

/-!
  Shallow embedding of the shutdown_future crate (src/src/lib.rs).

  The crate defines a single combinator, ShutdownFuture, that owns a vector
  of boxed trigger futures, a vector of boxed task futures and one cleanup
  future, and drives them through a three-state machine
  (WaitingForTrigger, RunningAction, JoiningTasks) in its poll method.

  Modelling choices:
  - Each owned boxed future is represented by an abstract identity drawn
    from a type parameter (Trigger, Task and F mirror the TriggerReturn,
    TaskReturn and F parameters of the Rust struct).  Whether a given owned
    future is ready when polled during one call to poll is supplied by a
    per-call readiness oracle, PollInput; the produced values are never
    observed by the combinator, so readiness is all the model needs.
  - One call to ShutdownFuture::poll becomes the pure function poll, which
    returns the updated combinator, the Poll result, the number of
    wake_by_ref calls made, and instrumentation recording exactly which
    owned futures were polled during the call.
  - Vec::remove(i) is List.eraseIdx i, Vec::pop is List.dropLast,
    Vec::last_mut is List.getLast?.
  - The Rust trigger loop polls the triggers in order and breaks at the
    first ready one; the task loop that FOLLOWS it (it is not skipped when
    a trigger was found) does the same over the tasks, removing the first
    ready task.  findReadyIdx computes the index at which such a loop
    breaks.
-/

namespace Shutdown

/-- ShutdownState from the source: the three phases of the combinator. -/
inductive ShutdownState where
  | WaitingForTrigger
  | RunningAction
  | JoiningTasks
deriving DecidableEq

/-- Poll result of one call (the Output payload is unit and is dropped). -/
inductive Poll where
  | Pending
  | Ready
deriving DecidableEq

/-- ShutdownFuture struct: triggers, tasks, the cleanup future, state. -/
structure ShutdownFuture (Trigger Task F : Type) where
  triggers : List Trigger
  tasks : List Task
  cleanup : F
  state : ShutdownState

/-- Readiness oracle for one call to poll: for each owned future, whether
polling it during this call finds it ready. -/
structure PollInput (Trigger Task : Type) where
  triggerReady : Trigger → Bool
  taskReady : Task → Bool
  cleanupReady : Bool

/-- Result of one call to poll: the updated combinator, the returned Poll
value, the number of wake_by_ref calls, and which owned futures were
polled during the call. -/
structure PollOutput (Trigger Task F : Type) where
  sf : ShutdownFuture Trigger Task F
  result : Poll
  wakes : Nat
  polledTriggers : List Trigger
  polledTasks : List Task
  cleanupPolled : Bool

/-- ShutdownFuture::new - stores the collections and starts in
WaitingForTrigger. -/
def ShutdownFuture.new {Trigger Task F : Type} (triggers : List Trigger)
    (tasks : List Task) (cleanup : F) : ShutdownFuture Trigger Task F :=
  { triggers := triggers, tasks := tasks, cleanup := cleanup,
    state := ShutdownState.WaitingForTrigger }

/-- Index at which a scan loop breaks: the first element satisfying p. -/
def findReadyIdx {α : Type} (p : α → Bool) : List α → Option Nat
  | [] => none
  | a :: as => if p a then some 0 else Option.map Nat.succ (findReadyIdx p as)

/-- The elements a scan loop polls: everything up to and including the
first ready element, or the whole list when none is ready. -/
def polledPrefix {α : Type} (l : List α) : Option Nat → List α
  | some i => l.take (i + 1)
  | none => l

variable {Trigger Task F : Type}

/-- One call to ShutdownFuture::poll (the Future impl in lib.rs).

In WaitingForTrigger the trigger loop runs first; if a trigger is ready it
wakes, sets state to RunningAction and breaks.  The task loop then runs
unconditionally (the source breaks out of the trigger loop only); if a
task is ready it is removed with Vec::remove, a wake is requested and the
state is set to RunningAction.  The call returns Pending.

In RunningAction the cleanup future is polled once; if ready, wake and
move to JoiningTasks; the call returns Pending either way.

In JoiningTasks the last task (if any) is polled; if ready it is popped
and a wake requested, returning Pending; if no task remains the call
returns Ready. -/
def poll (sf : ShutdownFuture Trigger Task F) (inp : PollInput Trigger Task) :
    PollOutput Trigger Task F :=
  match sf.state with
  | ShutdownState.WaitingForTrigger =>
    let ti := findReadyIdx inp.triggerReady sf.triggers
    let wakesT := if ti.isSome then 1 else 0
    let stateT := if ti.isSome then ShutdownState.RunningAction
                  else ShutdownState.WaitingForTrigger
    match findReadyIdx inp.taskReady sf.tasks with
    | some j =>
      { sf := { sf with tasks := sf.tasks.eraseIdx j,
                        state := ShutdownState.RunningAction },
        result := Poll.Pending,
        wakes := wakesT + 1,
        polledTriggers := polledPrefix sf.triggers ti,
        polledTasks := sf.tasks.take (j + 1),
        cleanupPolled := false }
    | none =>
      { sf := { sf with state := stateT },
        result := Poll.Pending,
        wakes := wakesT,
        polledTriggers := polledPrefix sf.triggers ti,
        polledTasks := sf.tasks,
        cleanupPolled := false }
  | ShutdownState.RunningAction =>
    if inp.cleanupReady then
      { sf := { sf with state := ShutdownState.JoiningTasks },
        result := Poll.Pending, wakes := 1,
        polledTriggers := [], polledTasks := [], cleanupPolled := true }
    else
      { sf := sf, result := Poll.Pending, wakes := 0,
        polledTriggers := [], polledTasks := [], cleanupPolled := true }
  | ShutdownState.JoiningTasks =>
    match sf.tasks.getLast? with
    | some t =>
      if inp.taskReady t then
        { sf := { sf with tasks := sf.tasks.dropLast },
          result := Poll.Pending, wakes := 1,
          polledTriggers := [], polledTasks := [t], cleanupPolled := false }
      else
        { sf := sf, result := Poll.Pending, wakes := 0,
          polledTriggers := [], polledTasks := [t], cleanupPolled := false }
    | none =>
      { sf := sf, result := Poll.Ready, wakes := 0,
        polledTriggers := [], polledTasks := [], cleanupPolled := false }

/-- Repeated polling: run poll once per input, threading the combinator. -/
def runPoll (sf : ShutdownFuture Trigger Task F) :
    List (PollInput Trigger Task) → ShutdownFuture Trigger Task F
  | [] => sf
  | inp :: rest => runPoll (poll sf inp).sf rest

/-- Forward order of the three phases. -/
def ShutdownState.rank : ShutdownState → Nat
  | ShutdownState.WaitingForTrigger => 0
  | ShutdownState.RunningAction => 1
  | ShutdownState.JoiningTasks => 2

/-! ### Helper lemmas about the scan index -/

theorem findReadyIdx_some_lt {α : Type} {p : α → Bool} {l : List α} {i : Nat}
    (h : findReadyIdx p l = some i) : i < l.length := by
  induction l generalizing i with
  | nil => simp [findReadyIdx] at h
  | cons a as ih =>
    rw [findReadyIdx] at h
    by_cases hp : p a
    · rw [if_pos hp] at h
      cases h
      simp
    · rw [if_neg hp] at h
      rcases hfr : findReadyIdx p as with _ | j
      · rw [hfr] at h
        simp at h
      · rw [hfr, Option.map_some'] at h
        cases h
        have := ih hfr
        simp only [List.length_cons]
        omega

theorem findReadyIdx_ready {α : Type} {p : α → Bool} {l : List α} {i : Nat}
    (h : findReadyIdx p l = some i) (hi : i < l.length) :
    p (l.get ⟨i, hi⟩) = true := by
  induction l generalizing i with
  | nil => simp [findReadyIdx] at h
  | cons a as ih =>
    rw [findReadyIdx] at h
    by_cases hp : p a
    · rw [if_pos hp] at h
      cases h
      simpa using hp
    · rw [if_neg hp] at h
      rcases hfr : findReadyIdx p as with _ | j
      · rw [hfr] at h
        simp at h
      · rw [hfr, Option.map_some'] at h
        cases h
        have hj : j < as.length := findReadyIdx_some_lt hfr
        simpa [List.get_cons_succ] using ih hfr hj

/-! ### Shape of one poll call in each phase -/

theorem poll_wait_shape (tg : List Trigger) (tk : List Task) (cu : F)
    (inp : PollInput Trigger Task) :
    poll ⟨tg, tk, cu, ShutdownState.WaitingForTrigger⟩ inp =
      match findReadyIdx inp.taskReady tk with
      | some j =>
        { sf := ⟨tg, tk.eraseIdx j, cu, ShutdownState.RunningAction⟩,
          result := Poll.Pending,
          wakes := (if (findReadyIdx inp.triggerReady tg).isSome then 1 else 0) + 1,
          polledTriggers := polledPrefix tg (findReadyIdx inp.triggerReady tg),
          polledTasks := tk.take (j + 1),
          cleanupPolled := false }
      | none =>
        { sf := ⟨tg, tk, cu,
                 if (findReadyIdx inp.triggerReady tg).isSome then
                   ShutdownState.RunningAction
                 else ShutdownState.WaitingForTrigger⟩,
          result := Poll.Pending,
          wakes := if (findReadyIdx inp.triggerReady tg).isSome then 1 else 0,
          polledTriggers := polledPrefix tg (findReadyIdx inp.triggerReady tg),
          polledTasks := tk,
          cleanupPolled := false } := by
  rcases hk : findReadyIdx inp.taskReady tk with _ | j <;> simp [poll, hk]

theorem poll_running_shape (tg : List Trigger) (tk : List Task) (cu : F)
    (inp : PollInput Trigger Task) :
    poll ⟨tg, tk, cu, ShutdownState.RunningAction⟩ inp =
      if inp.cleanupReady then
        { sf := ⟨tg, tk, cu, ShutdownState.JoiningTasks⟩,
          result := Poll.Pending, wakes := 1,
          polledTriggers := [], polledTasks := [], cleanupPolled := true }
      else
        { sf := ⟨tg, tk, cu, ShutdownState.RunningAction⟩,
          result := Poll.Pending, wakes := 0,
          polledTriggers := [], polledTasks := [], cleanupPolled := true } := by
  by_cases h : inp.cleanupReady <;> simp [poll, h]

theorem poll_joining_shape (tg : List Trigger) (tk : List Task) (cu : F)
    (inp : PollInput Trigger Task) :
    poll ⟨tg, tk, cu, ShutdownState.JoiningTasks⟩ inp =
      match tk.getLast? with
      | some t =>
        if inp.taskReady t then
          { sf := ⟨tg, tk.dropLast, cu, ShutdownState.JoiningTasks⟩,
            result := Poll.Pending, wakes := 1,
            polledTriggers := [], polledTasks := [t], cleanupPolled := false }
        else
          { sf := ⟨tg, tk, cu, ShutdownState.JoiningTasks⟩,
            result := Poll.Pending, wakes := 0,
            polledTriggers := [], polledTasks := [t], cleanupPolled := false }
      | none =>
        { sf := ⟨tg, tk, cu, ShutdownState.JoiningTasks⟩,
          result := Poll.Ready, wakes := 0,
          polledTriggers := [], polledTasks := [], cleanupPolled := false } := by
  rcases h : tk.getLast? with _ | t
  · simp [poll, h]
  · by_cases hr : inp.taskReady t <;> simp [poll, h, hr]

/-! ### Shared invariants of a single poll call -/

theorem poll_triggers_eq (sf : ShutdownFuture Trigger Task F)
    (inp : PollInput Trigger Task) : (poll sf inp).sf.triggers = sf.triggers := by
  obtain ⟨tg, tk, cu, st⟩ := sf
  cases st
  · rw [poll_wait_shape]
    rcases findReadyIdx inp.taskReady tk with _ | j <;> rfl
  · rw [poll_running_shape]
    by_cases h : inp.cleanupReady <;> simp [h]
  · rw [poll_joining_shape]
    rcases tk.getLast? with _ | t
    · rfl
    · by_cases h : inp.taskReady t <;> simp [h]

theorem poll_cleanup_eq (sf : ShutdownFuture Trigger Task F)
    (inp : PollInput Trigger Task) : (poll sf inp).sf.cleanup = sf.cleanup := by
  obtain ⟨tg, tk, cu, st⟩ := sf
  cases st
  · rw [poll_wait_shape]
    rcases findReadyIdx inp.taskReady tk with _ | j <;> rfl
  · rw [poll_running_shape]
    by_cases h : inp.cleanupReady <;> simp [h]
  · rw [poll_joining_shape]
    rcases tk.getLast? with _ | t
    · rfl
    · by_cases h : inp.taskReady t <;> simp [h]

theorem poll_rank_mono (sf : ShutdownFuture Trigger Task F)
    (inp : PollInput Trigger Task) :
    sf.state.rank ≤ (poll sf inp).sf.state.rank := by
  obtain ⟨tg, tk, cu, st⟩ := sf
  cases st
  · rw [poll_wait_shape]
    rcases findReadyIdx inp.taskReady tk with _ | j
    · by_cases h : (findReadyIdx inp.triggerReady tg).isSome <;>
        simp [h, ShutdownState.rank]
    · simp [ShutdownState.rank]
  · rw [poll_running_shape]
    by_cases h : inp.cleanupReady <;> simp [h, ShutdownState.rank]
  · rw [poll_joining_shape]
    rcases tk.getLast? with _ | t
    · simp [ShutdownState.rank]
    · by_cases h : inp.taskReady t <;> simp [h, ShutdownState.rank]

theorem poll_ready_iff (sf : ShutdownFuture Trigger Task F)
    (inp : PollInput Trigger Task) :
    (poll sf inp).result = Poll.Ready ↔
      sf.state = ShutdownState.JoiningTasks ∧ sf.tasks = [] := by
  obtain ⟨tg, tk, cu, st⟩ := sf
  cases st
  · rw [poll_wait_shape]
    rcases findReadyIdx inp.taskReady tk with _ | j <;> simp
  · rw [poll_running_shape]
    by_cases h : inp.cleanupReady <;> simp [h]
  · rw [poll_joining_shape]
    rcases h : tk.getLast? with _ | t
    · simp [List.getLast?_eq_none_iff.mp h]
    · have : tk ≠ [] := by
        intro hnil
        rw [hnil] at h
        simp at h
      by_cases hr : inp.taskReady t <;> simp [hr, this]

theorem rank_nonzero_state (st : ShutdownState)
    (h : st ≠ ShutdownState.WaitingForTrigger) : 1 ≤ st.rank := by
  cases st <;> simp_all [ShutdownState.rank]

/-! ### Shared facts about repeated polling -/

theorem runPoll_nil (sf : ShutdownFuture Trigger Task F) : runPoll sf [] = sf := rfl

theorem runPoll_cons (sf : ShutdownFuture Trigger Task F)
    (inp : PollInput Trigger Task) (rest : List (PollInput Trigger Task)) :
    runPoll sf (inp :: rest) = runPoll (poll sf inp).sf rest := rfl

theorem runPoll_append (sf : ShutdownFuture Trigger Task F)
    (l1 l2 : List (PollInput Trigger Task)) :
    runPoll sf (l1 ++ l2) = runPoll (runPoll sf l1) l2 := by
  induction l1 generalizing sf with
  | nil => rfl
  | cons a as ih => rw [List.cons_append, runPoll_cons, runPoll_cons, ih]

theorem runPoll_triggers_eq (sf : ShutdownFuture Trigger Task F)
    (inps : List (PollInput Trigger Task)) :
    (runPoll sf inps).triggers = sf.triggers := by
  induction inps generalizing sf with
  | nil => rfl
  | cons a as ih => rw [runPoll_cons, ih, poll_triggers_eq]

theorem runPoll_rank_mono (sf : ShutdownFuture Trigger Task F)
    (inps : List (PollInput Trigger Task)) :
    sf.state.rank ≤ (runPoll sf inps).state.rank := by
  induction inps generalizing sf with
  | nil => exact Nat.le_refl _
  | cons a as ih =>
    rw [runPoll_cons]
    exact Nat.le_trans (poll_rank_mono sf a) (ih _)

/-- How one poll call may change the task list: either it is untouched, or
exactly one entry that the oracle reports ready is removed by index; in
JoiningTasks that index is the last one. -/
theorem poll_tasks_change (sf : ShutdownFuture Trigger Task F)
    (inp : PollInput Trigger Task) :
    (poll sf inp).sf.tasks = sf.tasks ∨
    ∃ i, ∃ hi : i < sf.tasks.length,
      inp.taskReady (sf.tasks.get ⟨i, hi⟩) = true ∧
      (poll sf inp).sf.tasks = sf.tasks.eraseIdx i ∧
      (sf.state = ShutdownState.JoiningTasks → i + 1 = sf.tasks.length) := by
  obtain ⟨tg, tk, cu, st⟩ := sf
  cases st
  · rw [poll_wait_shape]
    rcases hk : findReadyIdx inp.taskReady tk with _ | j
    · left
      rfl
    · right
      exact ⟨j, findReadyIdx_some_lt hk, findReadyIdx_ready hk _, rfl,
        fun hcontra => by simp at hcontra⟩
  · rw [poll_running_shape]
    by_cases h : inp.cleanupReady <;> simp [h]
  · rw [poll_joining_shape]
    rcases h : tk.getLast? with _ | t
    · left
      rfl
    · by_cases hr : inp.taskReady t
      · right
        have hne : tk ≠ [] := by
          intro hnil
          rw [hnil] at h
          simp at h
        have hlen : 0 < tk.length := List.length_pos.mpr hne
        have hgl : tk.getLast hne = t := by
          have hq := List.getLast?_eq_getLast_of_ne_nil hne
          rw [h] at hq
          exact (Option.some.inj hq).symm
        refine ⟨tk.length - 1, by show tk.length - 1 < tk.length; omega, ?_, ?_,
          fun _ => by show tk.length - 1 + 1 = tk.length; omega⟩
        · have hget : tk.get ⟨tk.length - 1, by omega⟩ = t := by
            rw [← List.getLast_eq_get tk hne, hgl]
          rw [hget]
          exact hr
        · simp only [h, hr, if_true]
          exact List.dropLast_eq_eraseIdx (by omega)
      · left
        simp [h, hr]

/-- The phases that can precede JoiningTasks: the combinator enters
JoiningTasks only from RunningAction, on a call where cleanup is ready. -/
theorem poll_into_joining (sf : ShutdownFuture Trigger Task F)
    (inp : PollInput Trigger Task)
    (h : (poll sf inp).sf.state = ShutdownState.JoiningTasks) :
    sf.state = ShutdownState.JoiningTasks ∨
    (sf.state = ShutdownState.RunningAction ∧ inp.cleanupReady = true) := by
  obtain ⟨tg, tk, cu, st⟩ := sf
  cases st
  · rw [poll_wait_shape] at h
    rcases hk : findReadyIdx inp.taskReady tk with _ | j
    · rw [hk] at h
      by_cases ht : (findReadyIdx inp.triggerReady tg).isSome <;> simp [ht] at h
    · rw [hk] at h
      simp at h
  · by_cases hc : inp.cleanupReady
    · right
      exact ⟨rfl, hc⟩
    · rw [poll_running_shape] at h
      simp [hc] at h
  · left
    rfl

/-- JoiningTasks is terminal: once there, every poll stays there. -/
theorem poll_joining_stays (sf : ShutdownFuture Trigger Task F)
    (inp : PollInput Trigger Task)
    (h : sf.state = ShutdownState.JoiningTasks) :
    (poll sf inp).sf.state = ShutdownState.JoiningTasks := by
  obtain ⟨tg, tk, cu, st⟩ := sf
  simp only at h
  subst h
  rw [poll_joining_shape]
  rcases h : tk.getLast? with _ | t
  · rfl
  · by_cases hr : inp.taskReady t <;> simp [h, hr]

/-- Outside WaitingForTrigger a poll call polls no trigger at all. -/
theorem poll_no_triggers_polled (sf : ShutdownFuture Trigger Task F)
    (inp : PollInput Trigger Task)
    (h : sf.state ≠ ShutdownState.WaitingForTrigger) :
    (poll sf inp).polledTriggers = [] := by
  obtain ⟨tg, tk, cu, st⟩ := sf
  cases st
  · exact absurd rfl h
  · rw [poll_running_shape]
    by_cases hc : inp.cleanupReady <;> simp [hc]
  · rw [poll_joining_shape]
    rcases hl : tk.getLast? with _ | t
    · rfl
    · by_cases hr : inp.taskReady t <;> simp [hl, hr]

/-- A poll call never moves the state back to WaitingForTrigger from a
later phase. -/
theorem poll_stays_past_wait (sf : ShutdownFuture Trigger Task F)
    (inp : PollInput Trigger Task)
    (h : sf.state ≠ ShutdownState.WaitingForTrigger) :
    (poll sf inp).sf.state ≠ ShutdownState.WaitingForTrigger := by
  have h1 : 1 ≤ sf.state.rank := rank_nonzero_state _ h
  have h2 := poll_rank_mono sf inp
  intro hcontra
  rw [hcontra] at h2
  have h0 : ShutdownState.rank ShutdownState.WaitingForTrigger = 0 := rfl
  omega

/-- Reaching JoiningTasks from an earlier phase goes through a call made in
RunningAction whose oracle reports the cleanup future ready. -/
theorem runPoll_into_joining (sf : ShutdownFuture Trigger Task F)
    (inps : List (PollInput Trigger Task))
    (h0 : sf.state ≠ ShutdownState.JoiningTasks)
    (h1 : (runPoll sf inps).state = ShutdownState.JoiningTasks) :
    ∃ k, ∃ hk : k < inps.length,
      (runPoll sf (inps.take k)).state = ShutdownState.RunningAction ∧
      (inps.get ⟨k, hk⟩).cleanupReady = true := by
  induction inps generalizing sf with
  | nil => exact absurd h1 h0
  | cons a as ih =>
    rw [runPoll_cons] at h1
    by_cases hJ : (poll sf a).sf.state = ShutdownState.JoiningTasks
    · rcases poll_into_joining sf a hJ with hsfJ | ⟨hR, hc⟩
      · exact absurd hsfJ h0
      · exact ⟨0, by simp, by simpa using hR, by simpa using hc⟩
    · obtain ⟨k, hk, hA, hB⟩ := ih (poll sf a).sf hJ h1
      refine ⟨k + 1, by simpa using hk, ?_, ?_⟩
      · rw [List.take_succ_cons, runPoll_cons]
        exact hA
      · rw [List.get_cons_succ]
        exact hB

/-! ### Claim C1 -/

/-- Claim C1 counterexample: with one trigger and one task, both ready, a
single poll call in WaitingForTrigger observes the resolved trigger (it is
polled and the phase moves to RunningAction), yet the task is polled and
removed in that very same call — the claim says the task is left
untouched for a later call. -/
theorem C1_counterexample :
    (poll (ShutdownFuture.new ([3] : List Nat) ([5] : List Nat) 0)
        ⟨fun _ => true, fun _ => true, false⟩).sf.state =
      ShutdownState.RunningAction ∧
    (poll (ShutdownFuture.new ([3] : List Nat) ([5] : List Nat) 0)
        ⟨fun _ => true, fun _ => true, false⟩).polledTriggers = [3] ∧
    (poll (ShutdownFuture.new ([3] : List Nat) ([5] : List Nat) 0)
        ⟨fun _ => true, fun _ => true, false⟩).polledTasks = [5] ∧
    (poll (ShutdownFuture.new ([3] : List Nat) ([5] : List Nat) 0)
        ⟨fun _ => true, fun _ => true, false⟩).sf.tasks = [] := by
  decide

/-- Claim C1 (amended): in WaitingForTrigger, when some trigger has
resolved, the poll call requests a wake, transitions the phase to
RunningAction and stops scanning further triggers; however the same call
still scans the tasks: when no task is ready, all tasks are polled but
none is removed and exactly one wake is requested; when some task is
ready, the first such task is also removed and a second wake is
requested in the same call. -/
theorem C1_thm (sf : ShutdownFuture Trigger Task F)
    (inp : PollInput Trigger Task)
    (hst : sf.state = ShutdownState.WaitingForTrigger) (i : Nat)
    (hi : findReadyIdx inp.triggerReady sf.triggers = some i) :
    (poll sf inp).sf.state = ShutdownState.RunningAction ∧
    (poll sf inp).result = Poll.Pending ∧
    (poll sf inp).polledTriggers = sf.triggers.take (i + 1) ∧
    (findReadyIdx inp.taskReady sf.tasks = none →
      (poll sf inp).sf.tasks = sf.tasks ∧
      (poll sf inp).polledTasks = sf.tasks ∧
      (poll sf inp).wakes = 1) ∧
    (∀ j, findReadyIdx inp.taskReady sf.tasks = some j →
      (poll sf inp).sf.tasks = sf.tasks.eraseIdx j ∧
      (poll sf inp).polledTasks = sf.tasks.take (j + 1) ∧
      (poll sf inp).wakes = 2) := by
  obtain ⟨tg, tk, cu, st⟩ := sf
  dsimp only at hst hi ⊢
  subst hst
  rw [poll_wait_shape]
  have hsome : (findReadyIdx inp.triggerReady tg).isSome = true := by
    rw [hi]
    rfl
  rcases hk : findReadyIdx inp.taskReady tk with _ | j
  · simp [hk, hsome, polledPrefix, hi]
  · simp [hk, hsome, polledPrefix, hi]

/-- Claim C1 witness: a concrete instance of the amended theorem, with one
ready trigger and one ready task. -/
theorem C1_witness :
    (ShutdownFuture.new ([3] : List Nat) ([5] : List Nat) 0).state =
      ShutdownState.WaitingForTrigger ∧
    findReadyIdx (fun _ => true)
      (ShutdownFuture.new ([3] : List Nat) ([5] : List Nat) 0).triggers =
        some 0 ∧
    (poll (ShutdownFuture.new ([3] : List Nat) ([5] : List Nat) 0)
        ⟨fun _ => true, fun _ => true, false⟩).sf.state =
      ShutdownState.RunningAction :=
  ⟨rfl, rfl,
    (C1_thm (ShutdownFuture.new ([3] : List Nat) ([5] : List Nat) 0)
      ⟨fun _ => true, fun _ => true, false⟩ rfl 0 rfl).1⟩

/-! ### Claim C3 -/

/-- Claim C3 counterexample: a single poll call in WaitingForTrigger with
one ready trigger and one ready task acts on both in the same call — the
trigger is observed (moving the phase forward) and the task is removed —
so two wakes are requested; the claim says never one of each. -/
theorem C3_counterexample :
    (poll (ShutdownFuture.new ([10] : List Nat) ([20] : List Nat) 0)
        ⟨fun _ => true, fun _ => true, false⟩).wakes = 2 ∧
    (poll (ShutdownFuture.new ([10] : List Nat) ([20] : List Nat) 0)
        ⟨fun _ => true, fun _ => true, false⟩).polledTriggers = [10] ∧
    (poll (ShutdownFuture.new ([10] : List Nat) ([20] : List Nat) 0)
        ⟨fun _ => true, fun _ => true, false⟩).sf.tasks = [] ∧
    (poll (ShutdownFuture.new ([10] : List Nat) ([20] : List Nat) 0)
        ⟨fun _ => true, fun _ => true, false⟩).sf.state =
      ShutdownState.RunningAction := by
  decide

/-- Claim C3 (amended): every poll call acts on at most one resolved
trigger and at most one resolved task — in WaitingForTrigger a single call
may act on one of each when both a trigger and a task are ready, so the
wake count of a call is at most two there and at most one in every other
phase; at most one task is removed per call; in RunningAction only the
cleanup future is polled (no trigger, no task); in JoiningTasks the
cleanup future is not polled and only the last task, if any, is
inspected. -/
theorem C3_thm (sf : ShutdownFuture Trigger Task F)
    (inp : PollInput Trigger Task) :
    (poll sf inp).wakes ≤ 2 ∧
    (sf.state ≠ ShutdownState.WaitingForTrigger → (poll sf inp).wakes ≤ 1) ∧
    sf.tasks.length ≤ (poll sf inp).sf.tasks.length + 1 ∧
    (sf.state = ShutdownState.RunningAction →
      (poll sf inp).cleanupPolled = true ∧
      (poll sf inp).polledTriggers = [] ∧
      (poll sf inp).polledTasks = []) ∧
    (sf.state ≠ ShutdownState.RunningAction →
      (poll sf inp).cleanupPolled = false) ∧
    (sf.state = ShutdownState.JoiningTasks →
      (poll sf inp).polledTasks.length ≤ 1 ∧
      ∀ t, t ∈ (poll sf inp).polledTasks → sf.tasks.getLast? = some t) := by
  obtain ⟨tg, tk, cu, st⟩ := sf
  cases st
  · rw [poll_wait_shape]
    rcases hk : findReadyIdx inp.taskReady tk with _ | j
    · by_cases ht : (findReadyIdx inp.triggerReady tg).isSome <;> simp [ht]
    · have hlt : j < tk.length := findReadyIdx_some_lt hk
      have hlen : (tk.eraseIdx j).length = tk.length - 1 := by
        rw [List.length_eraseIdx]
        simp [hlt]
      by_cases ht : (findReadyIdx inp.triggerReady tg).isSome <;>
        simp [ht, hlen] <;> omega
  · rw [poll_running_shape]
    by_cases hc : inp.cleanupReady <;> simp [hc]
  · rw [poll_joining_shape]
    rcases hl : tk.getLast? with _ | t
    · simp [hl]
    · by_cases hr : inp.taskReady t <;> simp [hl, hr] <;> omega

/-- Claim C3 witness: a concrete instance of the amended theorem in
RunningAction, where only the cleanup future is polled. -/
theorem C3_witness :
    (ShutdownFuture.mk ([4] : List Nat) ([6] : List Nat) 0
        ShutdownState.RunningAction).state ≠ ShutdownState.WaitingForTrigger ∧
    (poll (ShutdownFuture.mk ([4] : List Nat) ([6] : List Nat) 0
        ShutdownState.RunningAction)
      ⟨fun _ => false, fun _ => false, true⟩).wakes ≤ 1 :=
  ⟨by decide,
    ((C3_thm (ShutdownFuture.mk ([4] : List Nat) ([6] : List Nat) 0
        ShutdownState.RunningAction)
      ⟨fun _ => false, fun _ => false, true⟩).2.1 (by decide))⟩

/-! ### Claim C4 -/

/-- Claim C4: for every construction with an empty trigger list and an
empty task list, no sequence of poll calls ever leaves WaitingForTrigger
(the combinator is unchanged by every call) and every poll in the
sequence returns Pending, so the final result is never yielded. -/
theorem C4_thm (sf : ShutdownFuture Trigger Task F)
    (htg : sf.triggers = []) (htk : sf.tasks = [])
    (hst : sf.state = ShutdownState.WaitingForTrigger)
    (inps : List (PollInput Trigger Task)) :
    runPoll sf inps = sf ∧
    (runPoll sf inps).state = ShutdownState.WaitingForTrigger ∧
    ∀ k, ∀ hk : k < inps.length,
      (poll (runPoll sf (inps.take k)) (inps.get ⟨k, hk⟩)).result =
        Poll.Pending := by
  obtain ⟨tg, tk, cu, st⟩ := sf
  dsimp only at htg htk hst
  subst htg
  subst htk
  subst hst
  have hfix : ∀ inp : PollInput Trigger Task,
      poll ⟨[], [], cu, ShutdownState.WaitingForTrigger⟩ inp =
        { sf := ⟨[], [], cu, ShutdownState.WaitingForTrigger⟩,
          result := Poll.Pending, wakes := 0,
          polledTriggers := [], polledTasks := [], cleanupPolled := false } := by
    intro inp
    rw [poll_wait_shape]
    simp [findReadyIdx, polledPrefix]
  have hrun : ∀ l : List (PollInput Trigger Task),
      runPoll ⟨[], [], cu, ShutdownState.WaitingForTrigger⟩ l =
        ⟨[], [], cu, ShutdownState.WaitingForTrigger⟩ := by
    intro l
    induction l with
    | nil => rfl
    | cons a as ih =>
      rw [runPoll_cons, hfix]
      exact ih
  refine ⟨hrun inps, by rw [hrun inps], ?_⟩
  intro k hk
  rw [hrun, hfix]

/-- Claim C4 witness: with no triggers and no tasks, three arbitrary polls
leave the combinator untouched. -/
theorem C4_witness :
    (ShutdownFuture.new ([] : List Nat) ([] : List Nat) 0).triggers = [] ∧
    runPoll (ShutdownFuture.new ([] : List Nat) ([] : List Nat) 0)
        [⟨fun _ => true, fun _ => true, true⟩,
         ⟨fun _ => false, fun _ => false, false⟩,
         ⟨fun _ => true, fun _ => false, true⟩] =
      ShutdownFuture.new ([] : List Nat) ([] : List Nat) 0 :=
  ⟨rfl,
    (C4_thm (ShutdownFuture.new ([] : List Nat) ([] : List Nat) 0) rfl rfl rfl
      [⟨fun _ => true, fun _ => true, true⟩,
       ⟨fun _ => false, fun _ => false, false⟩,
       ⟨fun _ => true, fun _ => false, true⟩]).1⟩

/-! ### Claim C9 -/

/-- Claim C9: once the combinator has completed (phase JoiningTasks with
no tasks left), polling it again any number of times returns Ready every
time and leaves it unchanged — completion is idempotent at the public
interface. -/
theorem C9_thm (sf : ShutdownFuture Trigger Task F)
    (inp : PollInput Trigger Task) (inps : List (PollInput Trigger Task))
    (hst : sf.state = ShutdownState.JoiningTasks) (htk : sf.tasks = []) :
    (poll sf inp).result = Poll.Ready ∧
    (poll sf inp).sf = sf ∧
    runPoll sf inps = sf ∧
    (poll (runPoll sf inps) inp).result = Poll.Ready := by
  obtain ⟨tg, tk, cu, st⟩ := sf
  dsimp only at hst htk
  subst hst
  subst htk
  have hfix : ∀ jnp : PollInput Trigger Task,
      poll ⟨tg, [], cu, ShutdownState.JoiningTasks⟩ jnp =
        { sf := ⟨tg, [], cu, ShutdownState.JoiningTasks⟩,
          result := Poll.Ready, wakes := 0,
          polledTriggers := [], polledTasks := [], cleanupPolled := false } := by
    intro jnp
    rw [poll_joining_shape]
    rfl
  have hrun : ∀ l : List (PollInput Trigger Task),
      runPoll ⟨tg, [], cu, ShutdownState.JoiningTasks⟩ l =
        ⟨tg, [], cu, ShutdownState.JoiningTasks⟩ := by
    intro l
    induction l with
    | nil => rfl
    | cons a as ih =>
      rw [runPoll_cons, hfix]
      exact ih
  refine ⟨by rw [hfix], by rw [hfix], hrun inps, by rw [hrun, hfix]⟩

/-- Claim C9 witness: a completed combinator polled twice more still
reports Ready. -/
theorem C9_witness :
    (ShutdownFuture.mk ([2] : List Nat) ([] : List Nat) 0
        ShutdownState.JoiningTasks).tasks = [] ∧
    (poll (runPoll (ShutdownFuture.mk ([2] : List Nat) ([] : List Nat) 0
          ShutdownState.JoiningTasks)
        [⟨fun _ => true, fun _ => true, true⟩])
      ⟨fun _ => false, fun _ => false, false⟩).result = Poll.Ready :=
  ⟨rfl,
    (C9_thm (ShutdownFuture.mk ([2] : List Nat) ([] : List Nat) 0
        ShutdownState.JoiningTasks)
      ⟨fun _ => false, fun _ => false, false⟩
      [⟨fun _ => true, fun _ => true, true⟩] rfl rfl).2.2.2⟩

/-! ### Claim C10 -/

/-- Claim C10: when a resolved task initiates shutdown in
WaitingForTrigger, the task removed is exactly the entry at the index
found by the in-order scan (Vec::remove of that index), the removal keeps
all remaining tasks in their original relative order (the list becomes
take j ++ drop (j+1)), and the removed entry was indeed reported ready. -/
theorem C10_thm (sf : ShutdownFuture Trigger Task F)
    (inp : PollInput Trigger Task)
    (hst : sf.state = ShutdownState.WaitingForTrigger) (j : Nat)
    (hj : findReadyIdx inp.taskReady sf.tasks = some j) :
    (poll sf inp).sf.tasks = sf.tasks.eraseIdx j ∧
    sf.tasks.eraseIdx j = sf.tasks.take j ++ sf.tasks.drop (j + 1) ∧
    ∃ hlt : j < sf.tasks.length,
      inp.taskReady (sf.tasks.get ⟨j, hlt⟩) = true := by
  obtain ⟨tg, tk, cu, st⟩ := sf
  dsimp only at hst hj ⊢
  subst hst
  rw [poll_wait_shape]
  simp only [hj]
  exact ⟨trivial, List.eraseIdx_eq_take_drop_succ tk j,
    findReadyIdx_some_lt hj, findReadyIdx_ready hj _⟩

/-- Claim C10 witness: removing the middle one of three tasks leaves the
outer two in their original order. -/
theorem C10_witness :
    (poll (ShutdownFuture.new ([] : List Nat) ([1, 2, 3] : List Nat) 0)
        ⟨fun _ => false, fun t => t == 2, false⟩).sf.tasks =
      ([1, 2, 3] : List Nat).eraseIdx 1 :=
  (C10_thm (ShutdownFuture.new ([] : List Nat) ([1, 2, 3] : List Nat) 0)
    ⟨fun _ => false, fun t => t == 2, false⟩ rfl 1 (by decide)).1

/-! ### Claim C5 -/

/-- Claim C5: in RunningAction every poll call polls the cleanup future
exactly once and returns Pending; if the cleanup resolved, the call
requests a wake and moves the phase to JoiningTasks, still without
yielding the final result in that call; outside RunningAction the cleanup
is never polled, and JoiningTasks is absorbing, so once the cleanup has
resolved it is never polled again. -/
theorem C5_thm (sf : ShutdownFuture Trigger Task F)
    (inp : PollInput Trigger Task) :
    (sf.state = ShutdownState.RunningAction →
      (poll sf inp).cleanupPolled = true ∧
      (poll sf inp).result = Poll.Pending ∧
      (inp.cleanupReady = true →
        (poll sf inp).sf.state = ShutdownState.JoiningTasks ∧
        (poll sf inp).wakes = 1) ∧
      (inp.cleanupReady = false →
        (poll sf inp).sf.state = ShutdownState.RunningAction ∧
        (poll sf inp).wakes = 0)) ∧
    (sf.state ≠ ShutdownState.RunningAction →
      (poll sf inp).cleanupPolled = false) ∧
    (sf.state = ShutdownState.JoiningTasks →
      (poll sf inp).sf.state = ShutdownState.JoiningTasks ∧
      (poll sf inp).cleanupPolled = false) := by
  obtain ⟨tg, tk, cu, st⟩ := sf
  cases st
  · rw [poll_wait_shape]
    rcases hk : findReadyIdx inp.taskReady tk with _ | j <;> simp [hk]
  · rw [poll_running_shape]
    by_cases hc : inp.cleanupReady <;> simp [hc]
  · rw [poll_joining_shape]
    rcases hl : tk.getLast? with _ | t
    · simp [hl]
    · by_cases hr : inp.taskReady t <;> simp [hl, hr]

/-- Claim C5 witness: a concrete RunningAction call with the cleanup ready
moves to JoiningTasks while still reporting Pending. -/
theorem C5_witness :
    (ShutdownFuture.mk ([1] : List Nat) ([2] : List Nat) 0
        ShutdownState.RunningAction).state = ShutdownState.RunningAction ∧
    (poll (ShutdownFuture.mk ([1] : List Nat) ([2] : List Nat) 0
        ShutdownState.RunningAction)
      ⟨fun _ => false, fun _ => false, true⟩).result = Poll.Pending ∧
    (poll (ShutdownFuture.mk ([1] : List Nat) ([2] : List Nat) 0
        ShutdownState.RunningAction)
      ⟨fun _ => false, fun _ => false, true⟩).sf.state =
      ShutdownState.JoiningTasks :=
  ⟨rfl,
    ((C5_thm (ShutdownFuture.mk ([1] : List Nat) ([2] : List Nat) 0
        ShutdownState.RunningAction)
      ⟨fun _ => false, fun _ => false, true⟩).1 rfl).2.1,
    (((C5_thm (ShutdownFuture.mk ([1] : List Nat) ([2] : List Nat) 0
        ShutdownState.RunningAction)
      ⟨fun _ => false, fun _ => false, true⟩).1 rfl).2.2.1 rfl).1⟩

/-! ### Claim C6 -/

/-- Claim C6: in JoiningTasks each poll call inspects only the last
remaining task: with no tasks left it yields Ready; when the last task
has resolved it removes it (pop) and requests a wake, returning Pending;
when the last task has not resolved it returns Pending without requesting
a wake and changes nothing. -/
theorem C6_thm (sf : ShutdownFuture Trigger Task F)
    (inp : PollInput Trigger Task)
    (hst : sf.state = ShutdownState.JoiningTasks) :
    (sf.tasks = [] →
      (poll sf inp).result = Poll.Ready ∧
      (poll sf inp).sf = sf ∧
      (poll sf inp).wakes = 0) ∧
    (∀ t, sf.tasks.getLast? = some t →
      (poll sf inp).polledTasks = [t] ∧
      (inp.taskReady t = true →
        (poll sf inp).sf.tasks = sf.tasks.dropLast ∧
        (poll sf inp).wakes = 1 ∧
        (poll sf inp).result = Poll.Pending) ∧
      (inp.taskReady t = false →
        (poll sf inp).sf = sf ∧
        (poll sf inp).wakes = 0 ∧
        (poll sf inp).result = Poll.Pending)) := by
  obtain ⟨tg, tk, cu, st⟩ := sf
  dsimp only at hst ⊢
  subst hst
  constructor
  · intro htk
    subst htk
    rw [poll_joining_shape]
    exact ⟨rfl, rfl, rfl⟩
  · intro t ht
    rw [poll_joining_shape]
    simp only [ht]
    by_cases hr : inp.taskReady t <;> simp [hr]

/-- Claim C6 witness: a concrete JoiningTasks call with the last of two
tasks ready pops exactly that task and wakes. -/
theorem C6_witness :
    (ShutdownFuture.mk ([] : List Nat) ([4, 9] : List Nat) 0
        ShutdownState.JoiningTasks).state = ShutdownState.JoiningTasks ∧
    (poll (ShutdownFuture.mk ([] : List Nat) ([4, 9] : List Nat) 0
        ShutdownState.JoiningTasks)
      ⟨fun _ => false, fun t => t == 9, false⟩).polledTasks = [9] :=
  ⟨rfl,
    ((C6_thm (ShutdownFuture.mk ([] : List Nat) ([4, 9] : List Nat) 0
        ShutdownState.JoiningTasks)
      ⟨fun _ => false, fun t => t == 9, false⟩ rfl).2 9 (by decide)).1⟩

/-! ### Claim C7 -/

/-- Claim C7: phase transitions are strictly forward. A single poll never
decreases the phase rank (WaitingForTrigger before RunningAction before
JoiningTasks), and along any sequence of polls the rank at an earlier
prefix is at most the rank at a later prefix, so no phase is ever
revisited once left. -/
theorem C7_thm (sf : ShutdownFuture Trigger Task F)
    (inp : PollInput Trigger Task) (inps : List (PollInput Trigger Task))
    (j k : Nat) (h : j ≤ k) :
    sf.state.rank ≤ (poll sf inp).sf.state.rank ∧
    ((runPoll sf (inps.take j)).state).rank ≤
      ((runPoll sf (inps.take k)).state).rank := by
  refine ⟨poll_rank_mono sf inp, ?_⟩
  have hsplit : inps.take k = inps.take j ++ (inps.drop j).take (k - j) := by
    rw [← List.take_add]
    congr 1
    omega
  rw [hsplit, runPoll_append]
  exact runPoll_rank_mono _ _

/-- Claim C7 witness: a concrete run in which the phase rank between the
first and second prefix never decreases. -/
theorem C7_witness :
    (1 : Nat) ≤ 2 ∧
    ((runPoll (ShutdownFuture.new ([8] : List Nat) ([5] : List Nat) 0)
        ([⟨fun _ => true, fun _ => false, true⟩,
          ⟨fun _ => false, fun _ => false, true⟩].take 1)).state).rank ≤
      ((runPoll (ShutdownFuture.new ([8] : List Nat) ([5] : List Nat) 0)
        ([⟨fun _ => true, fun _ => false, true⟩,
          ⟨fun _ => false, fun _ => false, true⟩].take 2)).state).rank :=
  ⟨by decide,
    (C7_thm (ShutdownFuture.new ([8] : List Nat) ([5] : List Nat) 0)
      ⟨fun _ => false, fun _ => false, false⟩
      [⟨fun _ => true, fun _ => false, true⟩,
       ⟨fun _ => false, fun _ => false, true⟩] 1 2 (by decide)).2⟩

/-! ### Claim C8 -/

/-- Claim C8: the trigger list is never mutated by any poll in any phase,
neither in one call nor across any run; and once the phase has moved past
WaitingForTrigger, no later call polls any trigger. -/
theorem C8_thm (sf : ShutdownFuture Trigger Task F)
    (inp : PollInput Trigger Task) (inps : List (PollInput Trigger Task)) :
    (poll sf inp).sf.triggers = sf.triggers ∧
    (runPoll sf inps).triggers = sf.triggers ∧
    (sf.state ≠ ShutdownState.WaitingForTrigger →
      (poll (runPoll sf inps) inp).polledTriggers = []) := by
  refine ⟨poll_triggers_eq sf inp, runPoll_triggers_eq sf inps, fun h => ?_⟩
  apply poll_no_triggers_polled
  have h1 := rank_nonzero_state _ h
  have h2 := runPoll_rank_mono sf inps
  intro hc
  rw [hc] at h2
  have h0 : ShutdownState.rank ShutdownState.WaitingForTrigger = 0 := rfl
  omega

/-- Claim C8 witness: from RunningAction, after one intermediate poll that
moves to JoiningTasks, a further poll with a ready trigger still polls no
trigger and the trigger list is intact. -/
theorem C8_witness :
    (ShutdownFuture.mk ([5] : List Nat) ([6] : List Nat) 0
        ShutdownState.RunningAction).state ≠
      ShutdownState.WaitingForTrigger ∧
    (poll (runPoll (ShutdownFuture.mk ([5] : List Nat) ([6] : List Nat) 0
          ShutdownState.RunningAction)
        [⟨fun _ => true, fun _ => false, true⟩])
      ⟨fun _ => true, fun _ => true, true⟩).polledTriggers = [] :=
  ⟨by decide,
    (C8_thm (ShutdownFuture.mk ([5] : List Nat) ([6] : List Nat) 0
        ShutdownState.RunningAction)
      ⟨fun _ => true, fun _ => true, true⟩
      [⟨fun _ => true, fun _ => false, true⟩]).2.2 (by decide)⟩

/-! ### Claim C2 -/

/-- Claim C2: for every construction with N tasks, when a poll finally
yields the final result the task list has become empty, so exactly N
removals have occurred; every individual call either leaves the task list
unchanged or removes exactly one entry whose oracle reported it resolved
(so the task list never grows and shrinks only by such removals), a
removal made in JoiningTasks always takes the last entry (the tail,
backward, one at a time), and the run passed through a RunningAction call
on which the cleanup future had resolved before the final result. -/
theorem C2_thm (tg : List Trigger) (tk : List Task) (cu : F)
    (inps : List (PollInput Trigger Task)) (inp : PollInput Trigger Task)
    (hdone : (poll (runPoll (ShutdownFuture.new tg tk cu) inps) inp).result =
      Poll.Ready) :
    (runPoll (ShutdownFuture.new tg tk cu) inps).tasks = [] ∧
    tk.length - (runPoll (ShutdownFuture.new tg tk cu) inps).tasks.length =
      tk.length ∧
    (∀ k, ∀ hk : k < inps.length,
      (poll (runPoll (ShutdownFuture.new tg tk cu) (inps.take k))
          (inps.get ⟨k, hk⟩)).sf.tasks =
        (runPoll (ShutdownFuture.new tg tk cu) (inps.take k)).tasks ∨
      ∃ i, ∃ hi : i <
          (runPoll (ShutdownFuture.new tg tk cu) (inps.take k)).tasks.length,
        (inps.get ⟨k, hk⟩).taskReady
          ((runPoll (ShutdownFuture.new tg tk cu) (inps.take k)).tasks.get
            ⟨i, hi⟩) = true ∧
        (poll (runPoll (ShutdownFuture.new tg tk cu) (inps.take k))
            (inps.get ⟨k, hk⟩)).sf.tasks =
          (runPoll (ShutdownFuture.new tg tk cu) (inps.take k)).tasks.eraseIdx
            i ∧
        ((runPoll (ShutdownFuture.new tg tk cu) (inps.take k)).state =
            ShutdownState.JoiningTasks →
          i + 1 =
            (runPoll (ShutdownFuture.new tg tk cu)
              (inps.take k)).tasks.length)) ∧
    (∃ k, ∃ hk : k < inps.length,
      (runPoll (ShutdownFuture.new tg tk cu) (inps.take k)).state =
        ShutdownState.RunningAction ∧
      (inps.get ⟨k, hk⟩).cleanupReady = true) := by
  have hready := (poll_ready_iff _ inp).mp hdone
  refine ⟨hready.2, by rw [hready.2]; simp, ?_, ?_⟩
  · intro k hk
    exact poll_tasks_change _ _
  · apply runPoll_into_joining
    · intro h
      simp [ShutdownFuture.new] at h
    · exact hready.1

/-- Claim C2 witness: zero triggers, two tasks and a three-call trace that
removes the first task in WaitingForTrigger, resolves the cleanup, pops
the remaining task, and then yields the final result with the task list
empty. -/
theorem C2_witness :
    (poll (runPoll (ShutdownFuture.new ([] : List Nat) ([1, 2] : List Nat) 0)
        [⟨fun _ => false, fun t => t == 1, false⟩,
         ⟨fun _ => false, fun _ => false, true⟩,
         ⟨fun _ => false, fun _ => true, false⟩])
      ⟨fun _ => false, fun _ => false, false⟩).result = Poll.Ready ∧
    (runPoll (ShutdownFuture.new ([] : List Nat) ([1, 2] : List Nat) 0)
        [⟨fun _ => false, fun t => t == 1, false⟩,
         ⟨fun _ => false, fun _ => false, true⟩,
         ⟨fun _ => false, fun _ => true, false⟩]).tasks = [] :=
  ⟨by decide,
    (C2_thm ([] : List Nat) ([1, 2] : List Nat) 0
      [⟨fun _ => false, fun t => t == 1, false⟩,
       ⟨fun _ => false, fun _ => false, true⟩,
       ⟨fun _ => false, fun _ => true, false⟩]
      ⟨fun _ => false, fun _ => false, false⟩ (by decide)).1⟩

end Shutdown
